import Mathlib

/-!
Verification of the zigaSwift-backend lead-intake and moderation pipeline.

The development shallowly embeds the Express/SQLite request handlers of
`src/server.js` (which contains two concatenated iterations of the server,
called V1 and V2 below) and of the variant server in `src/unnamed/part_006`
(called P6 below).  Pure JavaScript/SQL behavior is translated into
executable Lean functions:

* JavaScript strings are Lean `String`s; `String.length`, `trim`,
  `toLowerCase` are modelled over the character list (inputs of interest are
  ASCII, where the JS UTF-16 semantics agree).
* `Number(string)` coercion is modelled by `jsNumber`, covering decimal,
  hex/octal/binary and Infinity forms; `JsNum.nan` models `NaN`.
* The zod schemas are modelled field by field (`fieldIssues`), with zod
  default issue messages; `z.string().email()` is modelled after the zod
  email regular expression.
* The SQLite tables are lists of row structures plus an AUTOINCREMENT
  counter; `UPDATE`/`DELETE ... WHERE id=?` are modelled with SQLite
  `changes` semantics (number of rows matched); `NaN` bound parameters
  match no row.
* Fallible I/O (insert faults, SMTP delivery faults) is modelled by
  explicit `Option String` fault parameters carrying the driver message;
  `console` output is returned as a log list.
-/

set_option maxRecDepth 4096

namespace Ziga

/-! ## JavaScript string primitives -/

/-- Whitespace characters removed by the JavaScript `String.prototype.trim`
(restricted to the ASCII range used by this code base). -/
def jsWhite (c : Char) : Bool :=
  c == ' ' || c == '\t' || c == '\n' || c == '\r' || c == '\x0b' || c == '\x0c'

/-- JavaScript `.trim()`: strip leading and trailing whitespace. -/
def jsTrim (s : String) : String :=
  ⟨((s.data.dropWhile jsWhite).reverse.dropWhile jsWhite).reverse⟩

/-- ASCII lower-casing of one character, as JS `toLowerCase` acts on ASCII. -/
def charLower (c : Char) : Char :=
  if 'A' ≤ c && c ≤ 'Z' then Char.ofNat (c.toNat + 32) else c

/-- JavaScript `.toLowerCase()` (ASCII fragment). -/
def jsToLowerCase (s : String) : String :=
  ⟨s.data.map charLower⟩

/-- JavaScript string length; for the ASCII inputs considered here the
UTF-16 unit count equals the character count. -/
def jsLength (s : String) : Nat := s.data.length

/-! ## JavaScript `Number()` coercion

`Number(req.params.id)` in the admin mutation routes.  A finite value is
represented exactly as `fin m e` with value `m * 10 ^ e`. -/

inductive JsNum where
  | nan : JsNum
  | inf (neg : Bool) : JsNum
  | fin (m : Int) (e : Int) : JsNum
deriving DecidableEq, Repr

def isDigitCh (c : Char) : Bool := '0' ≤ c && c ≤ '9'

def isHexCh (c : Char) : Bool :=
  isDigitCh c || ('a' ≤ c && c ≤ 'f') || ('A' ≤ c && c ≤ 'F')

def isOctCh (c : Char) : Bool := '0' ≤ c && c ≤ '7'

def isBinCh (c : Char) : Bool := c == '0' || c == '1'

def digitVal (c : Char) : Nat :=
  if 'a' ≤ c && c ≤ 'f' then c.toNat - 87
  else if 'A' ≤ c && c ≤ 'F' then c.toNat - 55
  else c.toNat - 48

def digitsVal (base : Nat) (l : List Char) : Nat :=
  l.foldl (fun a c => a * base + digitVal c) 0

/-- Exponent suffix of a decimal numeric literal; `some k` when the whole
remaining input is a wellformed (possibly empty) exponent part of value `k`. -/
def parseExp (l : List Char) : Option Int :=
  match l with
  | [] => some 0
  | c :: r =>
    if c == 'e' || c == 'E' then
      match r with
      | '+' :: t => if t ≠ [] && t.all isDigitCh then some (digitsVal 10 t) else none
      | '-' :: t => if t ≠ [] && t.all isDigitCh then some (-(digitsVal 10 t : Int)) else none
      | t => if t ≠ [] && t.all isDigitCh then some (digitsVal 10 t) else none
    else none

/-- Unsigned decimal literal (`digits [. digits] [exponent]`); returns the
mantissa and decimal exponent so that the value is `m * 10 ^ e`. -/
def parseDec (l : List Char) : Option (Nat × Int) :=
  let ip := l.takeWhile isDigitCh
  let rest := l.dropWhile isDigitCh
  match rest with
  | [] => if ip.isEmpty then none else some (digitsVal 10 ip, 0)
  | '.' :: r2 =>
    let fp := r2.takeWhile isDigitCh
    let r3 := r2.dropWhile isDigitCh
    if ip.isEmpty && fp.isEmpty then none
    else
      match parseExp r3 with
      | some ex => some (digitsVal 10 (ip ++ fp), ex - fp.length)
      | none => none
  | _ =>
    match parseExp rest with
    | some ex => if ip.isEmpty then none else some (digitsVal 10 ip, ex)
    | none => none

/-- Body of a JS numeric string after the optional sign. -/
def parseUnsigned (l : List Char) : Option JsNum :=
  if l = ['I','n','f','i','n','i','t','y'] then some (.inf false)
  else
    match parseDec l with
    | some (m, e) => some (.fin m e)
    | none => none

/-- JavaScript `Number(s)` restricted to exact arithmetic: `nan` when the
string does not denote a number, otherwise the exact value (JS float
rounding of huge literals is not modelled; the ids involved are small). -/
def jsNumber (s : String) : JsNum :=
  match (jsTrim s).data with
  | [] => .fin 0 0
  | '0' :: c :: rest =>
    if c == 'x' || c == 'X' then
      if rest ≠ [] && rest.all isHexCh then .fin (digitsVal 16 rest) 0 else .nan
    else if c == 'o' || c == 'O' then
      if rest ≠ [] && rest.all isOctCh then .fin (digitsVal 8 rest) 0 else .nan
    else if c == 'b' || c == 'B' then
      if rest ≠ [] && rest.all isBinCh then .fin (digitsVal 2 rest) 0 else .nan
    else
      match parseUnsigned ('0' :: c :: rest) with
      | some v => v
      | none => .nan
  | '+' :: r =>
    match parseUnsigned r with
    | some v => v
    | none => .nan
  | '-' :: r =>
    match parseUnsigned r with
    | some (.fin m e) => .fin (-m) e
    | some (.inf _) => .inf true
    | _ => .nan
  | l =>
    match parseUnsigned l with
    | some v => v
    | none => .nan

/-- Does the bound SQL parameter equal the integer row id `n`?  A `NaN` or
infinite bind matches no row; a finite value matches exactly its value. -/
def jsNumEq (j : JsNum) (n : Nat) : Bool :=
  match j with
  | .fin m e =>
    if 0 ≤ e then m * (10 : Int) ^ e.toNat == (n : Int)
    else m == (n : Int) * (10 : Int) ^ (-e).toNat
  | _ => false

/-! ## zod `z.string().email()`

Modelled after the zod v3 email regular expression
`(?!\.)(?!.*\.\.)([A-Z0-9_'+\-\.]*)[A-Z0-9_+\-]@([A-Z0-9][A-Z0-9\-]*\.)+[A-Z]{2,}`
with the `i` flag: the whole string must not start with a dot and must not
contain two consecutive dots; the local part consists of the allowed
characters and ends in an alphanumeric, `_`, `+` or `-`; the domain is one
or more alphanumeric-hyphen labels followed by an alphabetic TLD of length
at least two. -/

def apostropheChar : Char := Char.ofNat 39

def emailLocalChar (c : Char) : Bool :=
  c.isAlpha || isDigitCh c || c == '_' || c == apostropheChar || c == '+' || c == '-' || c == '.'

def emailLocalEndChar (c : Char) : Bool :=
  c.isAlpha || isDigitCh c || c == '_' || c == '+' || c == '-'

def noDoubleDot : List Char → Bool
  | '.' :: '.' :: _ => false
  | _ :: r => noDoubleDot r
  | [] => true

def lastLocalOk : List Char → Bool
  | [] => false
  | [c] => emailLocalEndChar c
  | _ :: r => lastLocalOk r

def emailLocalOk (l : List Char) : Bool :=
  match l with
  | [] => false
  | c :: _ => !(c == '.') && l.all emailLocalChar && lastLocalOk l

/-- Split a character list at every dot (like `"a.b".split(".")`). -/
def splitDots : List Char → List (List Char)
  | [] => [[]]
  | '.' :: r => [] :: splitDots r
  | c :: r =>
    match splitDots r with
    | h :: t => (c :: h) :: t
    | [] => [[c]]

def emailLabelOk (l : List Char) : Bool :=
  match l with
  | [] => false
  | c :: r => (c.isAlpha || isDigitCh c) && r.all (fun x => x.isAlpha || isDigitCh x || x == '-')

def emailTldOk (l : List Char) : Bool :=
  decide (2 ≤ l.length) && l.all Char.isAlpha

def emailDomainOk (l : List Char) : Bool :=
  match (splitDots l).reverse with
  | tld :: lab :: labs => emailTldOk tld && (lab :: labs).all emailLabelOk
  | _ => false

def isZodEmail (s : String) : Bool :=
  let cs := s.data
  let lp := cs.takeWhile (fun c => !(c == '@'))
  match cs.dropWhile (fun c => !(c == '@')) with
  | '@' :: dom =>
    noDoubleDot cs && !(dom.contains '@') && emailLocalOk lp && emailDomainOk dom
  | _ => false

/-! ## zod object validation

Each schema field is a `z.string()` chained with checks; zod validates every
field of the object and collects every issue, in field declaration order,
using its default issue messages.  An input field is `none` when the key is
absent from the request body (zod issue `Required`). -/

structure Issue where
  path : List String
  message : String
deriving DecidableEq, Repr

/-- JavaScript `Array.prototype.join(sep)`. -/
def joinSep (sep : String) : List String → String
  | [] => ""
  | [x] => x
  | x :: xs => x ++ sep ++ joinSep sep xs

/-- Issues of one object field: absent ↦ `Required`; present ↦ the issues
of the chained string checks, each tagged with the field path. -/
def fieldIssues (f : String) (v : Option String) (checks : String → List String) : List Issue :=
  match v with
  | none => [⟨[f], "Required"⟩]
  | some s => (checks s).map (fun m => ⟨[f], m⟩)

def minMsg (n : Nat) : String :=
  "String must contain at least " ++ toString n ++ " character(s)"

def maxMsg (n : Nat) : String :=
  "String must contain at most " ++ toString n ++ " character(s)"

/-- Checks of `z.string().min(lo).max(hi)`. -/
def minMaxChecks (lo hi : Nat) (s : String) : List String :=
  (if jsLength s < lo then [minMsg lo] else []) ++
  (if hi < jsLength s then [maxMsg hi] else [])

/-- Checks of `z.string().email().max(hi)`. -/
def emailChecks (hi : Nat) (s : String) : List String :=
  (if isZodEmail s then [] else ["Invalid email"]) ++
  (if hi < jsLength s then [maxMsg hi] else [])

/-- `zodErrorToMessage` from V2 `server.js`: map every zod issue to
`path: message` (path segments joined by dots, `"field"` when the join is
empty) and join with a bar separator. -/
def zodErrorToMessage (issues : List Issue) : String :=
  joinSep " | " (issues.map fun e =>
    (if joinSep "." e.path = "" then "field" else joinSep "." e.path) ++ ": " ++ e.message)

/-! ## V2 data model

Tables of the second `server.js` iteration: `waitlist (id, name, email,
city, status, created_at)` and `couriers (id, name, email, route, status,
created_at)`; `id INTEGER PRIMARY KEY AUTOINCREMENT` is modelled by a
monotone counter per table, `created_at DATETIME DEFAULT CURRENT_TIMESTAMP`
by a clock string supplied with each insert. -/

structure Row where
  id : Nat
  name : String
  email : String
  city : String
  status : String
  created_at : String
deriving DecidableEq, Repr

structure CRow where
  id : Nat
  name : String
  email : String
  route : String
  status : String
  created_at : String
deriving DecidableEq, Repr

structure DB where
  waitlist : List Row := []
  couriers : List CRow := []
  wseq : Nat := 0
  cseq : Nat := 0
deriving DecidableEq, Repr

/-- `INSERT INTO waitlist (name, email, city, status) VALUES (?, ?, ?, 'pending')`:
the values are bound verbatim, AUTOINCREMENT assigns the next id, and
`created_at` takes the current timestamp.  Returns the new database and
`this.lastID`. -/
def insertWaitlist (db : DB) (name email city now : String) : DB × Nat :=
  let newId := db.wseq + 1
  ({ db with
      waitlist := db.waitlist ++ [⟨newId, name, email, city, "pending", now⟩],
      wseq := newId },
   newId)

/-- `UPDATE waitlist SET status=? WHERE id=?` with the SQLite `changes`
count: every row whose id equals the bound value gets the new status; the
count is the number of matched rows. -/
def sqlUpdateStatusW (rows : List Row) (st : String) (idv : JsNum) : List Row × Nat :=
  (rows.map fun r => if jsNumEq idv r.id then { r with status := st } else r,
   rows.countP fun r => jsNumEq idv r.id)

/-- `DELETE FROM waitlist WHERE id=?` with the SQLite `changes` count. -/
def sqlDeleteW (rows : List Row) (idv : JsNum) : List Row × Nat :=
  (rows.filter fun r => !jsNumEq idv r.id,
   rows.countP fun r => jsNumEq idv r.id)

/-- `UPDATE couriers SET status=? WHERE id=?`. -/
def sqlUpdateStatusC (rows : List CRow) (st : String) (idv : JsNum) : List CRow × Nat :=
  (rows.map fun r => if jsNumEq idv r.id then { r with status := st } else r,
   rows.countP fun r => jsNumEq idv r.id)

/-- `DELETE FROM couriers WHERE id=?`. -/
def sqlDeleteC (rows : List CRow) (idv : JsNum) : List CRow × Nat :=
  (rows.filter fun r => !jsNumEq idv r.id,
   rows.countP fun r => jsNumEq idv r.id)

/-- Insertion step of `ORDER BY key DESC` (stable for the distinct ids
produced by AUTOINCREMENT). -/
def insertByKeyDesc (key : α → Nat) (r : α) : List α → List α
  | [] => [r]
  | x :: xs => if key x ≤ key r then r :: x :: xs else x :: insertByKeyDesc key r xs

/-- `SELECT ... ORDER BY id DESC` as a sort of the table rows. -/
def sortByKeyDesc (key : α → Nat) (l : List α) : List α :=
  l.foldr (insertByKeyDesc key) []

/-- `SELECT id, name, email, city, status, created_at FROM waitlist
ORDER BY id DESC LIMIT n` (the V2 route fixes `n := 200`). -/
def sqlWaitlistPage (rows : List Row) (limit : Nat) : List Row :=
  (sortByKeyDesc Row.id rows).take limit

/-! ## V2 environment, responses and auth -/

/-- Process environment variables read by the V2 server (a missing
variable is `none`) together with whether SMTP is fully configured. -/
structure Env where
  adminKeyVar : Option String := none
  adminNotifyVar : Option String := none
  smtpConfigured : Bool := false
deriving DecidableEq, Repr

/-- Outcome of an auth middleware: pass the request on (`next()`), or
short-circuit with a status and error message. -/
inductive Gate where
  | ok : Gate
  | reject (status : Nat) (error : String) : Gate
deriving DecidableEq, Repr

/-- `const ADMIN_NOTIFY_EMAIL = (process.env.ADMIN_NOTIFY_EMAIL || "").trim()`. -/
def ADMIN_NOTIFY_EMAIL (env : Env) : String :=
  jsTrim (env.adminNotifyVar.getD "")

structure SubmitResp where
  status : Nat
  ok : Bool
  error : Option String := none
  id : Option Nat := none
deriving DecidableEq, Repr

structure MutResp where
  status : Nat
  ok : Bool
  error : Option String := none
  updated : Option Nat := none
  deleted : Option Nat := none
deriving DecidableEq, Repr

structure ListResp where
  status : Nat
  ok : Bool
  error : Option String := none
  items : List Row := []
deriving DecidableEq, Repr

structure CListResp where
  status : Nat
  ok : Bool
  error : Option String := none
  items : List CRow := []
deriving DecidableEq, Repr

/-- V2 `requireAdminKey` middleware: with no configured `ADMIN_KEY` the
request is rejected with 500 `ADMIN_KEY not set on server`; otherwise the
trimmed `x-admin-key` header must be nonempty and equal to the trimmed
configured value, else 401 `Unauthorized`. -/
def requireAdminKey (env : Env) (hdr : Option String) : Gate :=
  let expected := jsTrim (env.adminKeyVar.getD "")
  if expected = "" then .reject 500 "ADMIN_KEY not set on server"
  else
    let got := jsTrim (hdr.getD "")
    if got ≠ "" ∧ got = expected then .ok else .reject 401 "Unauthorized"

/-- The middleware let the request through. -/
def authOk (env : Env) (hdr : Option String) : Prop :=
  requireAdminKey env hdr = .ok

instance (env : Env) (hdr : Option String) : Decidable (authOk env hdr) :=
  inferInstanceAs (Decidable (requireAdminKey env hdr = .ok))

/-! ## V2 email -/

/-- `sendMailSafe` of V2: skip (with a warning) when SMTP is not
configured; otherwise attempt delivery, logging—and only logging—a
failure.  `mailErr` is the delivery-fault oracle (the nodemailer error
message, `none` on success); the returned list is the `console` output. -/
def sendMailSafe (smtpConfigured : Bool) (mailErr : Option String)
    (_to _subject _html : String) : List String :=
  if smtpConfigured then
    match mailErr with
    | some m => ["⚠️ Email send failed: " ++ m]
    | none => []
  else ["⚠️ Email not configured (skipping send)."]

/-! ## V2 request handlers -/

/-- Body of a waitlist submission; a field is `none` when the key is
absent from the parsed JSON body. -/
structure WaitInput where
  name : Option String := none
  email : Option String := none
  city : Option String := none
deriving DecidableEq, Repr

/-- All issues the V2 waitlist schema
`z.object({name: min(2).max(80), email: email().max(120), city: min(2).max(120)})`
collects on an input, in field declaration order. -/
def waitIssues (inp : WaitInput) : List Issue :=
  fieldIssues "name" inp.name (minMaxChecks 2 80) ++
  fieldIssues "email" inp.email (emailChecks 120) ++
  fieldIssues "city" inp.city (minMaxChecks 2 120)

/-- The fields on which the V2 waitlist schema reports at least one issue. -/
def offendingWaitFields (inp : WaitInput) : List String :=
  (if fieldIssues "name" inp.name (minMaxChecks 2 80) = [] then [] else ["name"]) ++
  (if fieldIssues "email" inp.email (emailChecks 120) = [] then [] else ["email"]) ++
  (if fieldIssues "city" inp.city (minMaxChecks 2 120) = [] then [] else ["city"])

/-- `schema.parse(req.body)` for the V2 waitlist schema: throws the
collected issues, or returns the (name, email, city) record. -/
def waitParse (inp : WaitInput) : Except (List Issue) (String × String × String) :=
  match inp.name, inp.email, inp.city with
  | some n, some e, some c =>
    if (waitIssues inp).isEmpty then .ok (n, e, c) else .error (waitIssues inp)
  | _, _, _ => .error (waitIssues inp)

/-- V2 `POST /api/waitlist`: parse with the zod schema (a zod throw is
answered with 400 and `zodErrorToMessage`); insert the row with status
`pending` (an insert fault is answered with 500 `Database error`, logged
with the driver message); then fire-and-forget the user email and, when
`ADMIN_NOTIFY_EMAIL` is set, the admin notification; answer
`{ok:true, id:lastID}`.  `insertErr`/`mailErr` are the fault oracles
(`mailErr` applies to each attempted delivery); the third component is the
`console` output. -/
def postWaitlist (env : Env) (db : DB) (inp : WaitInput) (now : String)
    (insertErr mailErr : Option String) : DB × SubmitResp × List String :=
  match waitParse inp with
  | .error issues =>
    (db, { status := 400, ok := false, error := some (zodErrorToMessage issues) }, [])
  | .ok (name, email, city) =>
    match insertErr with
    | some m =>
      (db, { status := 500, ok := false, error := some "Database error" },
       ["❌ Waitlist insert failed: " ++ m])
    | none =>
      let ins := insertWaitlist db name email city now
      let logs1 := sendMailSafe env.smtpConfigured mailErr email "Welcome to ZigaSwift 🚀" ""
      let logs2 :=
        if ADMIN_NOTIFY_EMAIL env ≠ "" then
          sendMailSafe env.smtpConfigured mailErr (ADMIN_NOTIFY_EMAIL env)
            "🟢 New Waitlist Signup — ZigaSwift" ""
        else []
      (ins.1, { status := 200, ok := true, id := some ins.2 }, logs1 ++ logs2)

/-- V2 `GET /api/admin/waitlist` (admin gated): on a database fault answer
500 `Database error`; otherwise the newest 200 rows, newest first. -/
def getAdminWaitlist (env : Env) (hdr : Option String) (db : DB)
    (dbErr : Option String) : ListResp :=
  match requireAdminKey env hdr with
  | .reject st m => { status := st, ok := false, error := some m }
  | .ok =>
    match dbErr with
    | some _ => { status := 500, ok := false, error := some "Database error" }
    | none => { status := 200, ok := true, items := sqlWaitlistPage db.waitlist 200 }

/-- V2 `PATCH /api/admin/waitlist/:id/accept` (admin gated): set the status
of the row numbered `Number(req.params.id)` to `accepted` and answer
`{ok:true, updated:changes}`. -/
def patchAcceptWaitlist (env : Env) (hdr : Option String) (db : DB)
    (idStr : String) (dbErr : Option String) : DB × MutResp :=
  match requireAdminKey env hdr with
  | .reject st m => (db, { status := st, ok := false, error := some m })
  | .ok =>
    match dbErr with
    | some _ => (db, { status := 500, ok := false, error := some "Database error" })
    | none =>
      let res := sqlUpdateStatusW db.waitlist "accepted" (jsNumber idStr)
      ({ db with waitlist := res.1 }, { status := 200, ok := true, updated := some res.2 })

/-- V2 `PATCH /api/admin/waitlist/:id/reject` (admin gated). -/
def patchRejectWaitlist (env : Env) (hdr : Option String) (db : DB)
    (idStr : String) (dbErr : Option String) : DB × MutResp :=
  match requireAdminKey env hdr with
  | .reject st m => (db, { status := st, ok := false, error := some m })
  | .ok =>
    match dbErr with
    | some _ => (db, { status := 500, ok := false, error := some "Database error" })
    | none =>
      let res := sqlUpdateStatusW db.waitlist "rejected" (jsNumber idStr)
      ({ db with waitlist := res.1 }, { status := 200, ok := true, updated := some res.2 })

/-- V2 `DELETE /api/admin/waitlist/:id` (admin gated): answer
`{ok:true, deleted:changes}`. -/
def deleteWaitlist (env : Env) (hdr : Option String) (db : DB)
    (idStr : String) (dbErr : Option String) : DB × MutResp :=
  match requireAdminKey env hdr with
  | .reject st m => (db, { status := st, ok := false, error := some m })
  | .ok =>
    match dbErr with
    | some _ => (db, { status := 500, ok := false, error := some "Database error" })
    | none =>
      let res := sqlDeleteW db.waitlist (jsNumber idStr)
      ({ db with waitlist := res.1 }, { status := 200, ok := true, deleted := some res.2 })

/-- V2 `PATCH /api/admin/couriers/:id/accept` (admin gated). -/
def patchAcceptCourier (env : Env) (hdr : Option String) (db : DB)
    (idStr : String) (dbErr : Option String) : DB × MutResp :=
  match requireAdminKey env hdr with
  | .reject st m => (db, { status := st, ok := false, error := some m })
  | .ok =>
    match dbErr with
    | some _ => (db, { status := 500, ok := false, error := some "Database error" })
    | none =>
      let res := sqlUpdateStatusC db.couriers "accepted" (jsNumber idStr)
      ({ db with couriers := res.1 }, { status := 200, ok := true, updated := some res.2 })

/-- V2 `PATCH /api/admin/couriers/:id/reject` (admin gated). -/
def patchRejectCourier (env : Env) (hdr : Option String) (db : DB)
    (idStr : String) (dbErr : Option String) : DB × MutResp :=
  match requireAdminKey env hdr with
  | .reject st m => (db, { status := st, ok := false, error := some m })
  | .ok =>
    match dbErr with
    | some _ => (db, { status := 500, ok := false, error := some "Database error" })
    | none =>
      let res := sqlUpdateStatusC db.couriers "rejected" (jsNumber idStr)
      ({ db with couriers := res.1 }, { status := 200, ok := true, updated := some res.2 })

/-! ## V1: the first server iteration in `src/server.js`

Its `waitlist` table has columns `(id, name, email, hub, created_at)` — no
status column; `insertWaitlist` lower-cases the email and stamps
`nowISO()`; the submit handler `await`s `sendMail`, so a delivery failure
is caught by the surrounding `catch` and answered with
`400 {ok:false, error: err.message || "Invalid request"}`. -/

structure V1Row where
  id : Nat
  name : String
  email : String
  hub : String
  created_at : String
deriving DecidableEq, Repr

structure V1DB where
  waitlist : List V1Row := []
  wseq : Nat := 0
deriving DecidableEq, Repr

structure WaitInputV1 where
  name : Option String := none
  email : Option String := none
  hub : Option String := none
deriving DecidableEq, Repr

/-- Issues of the V1 `WaitlistSchema` (`hub` in place of `city`). -/
def waitIssuesV1 (inp : WaitInputV1) : List Issue :=
  fieldIssues "name" inp.name (minMaxChecks 2 80) ++
  fieldIssues "email" inp.email (emailChecks 120) ++
  fieldIssues "hub" inp.hub (minMaxChecks 2 120)

def waitParseV1 (inp : WaitInputV1) : Except (List Issue) (String × String × String) :=
  match inp.name, inp.email, inp.hub with
  | some n, some e, some h =>
    if (waitIssuesV1 inp).isEmpty then .ok (n, e, h) else .error (waitIssuesV1 inp)
  | _, _, _ => .error (waitIssuesV1 inp)

/-- Modelled from the spec: `ZodError.message` (zod library internals, not
part of this repository) is the JSON serialization of the issue list;
rendered here in compact JSON form.  No claim inspects its contents. -/
def zodV1Message (issues : List Issue) : String :=
  "[" ++ joinSep "," (issues.map fun i =>
    "\x7b\"path\":[" ++ joinSep "," (i.path.map fun p => "\"" ++ p ++ "\"") ++
    "],\"message\":\"" ++ i.message ++ "\"\x7d") ++ "]"

/-- JavaScript `err.message || "Invalid request"` (an empty message is
falsy). -/
def errMessageOr (m : String) : String :=
  if m = "" then "Invalid request" else m

/-- V1 `insertWaitlist`: `INSERT INTO waitlist(name,email,hub,created_at)
VALUES(?,?,?,?)` with `email.toLowerCase()` and `nowISO()`. -/
def insertWaitlistV1 (db : V1DB) (name email hub now : String) : V1DB × Nat :=
  let newId := db.wseq + 1
  ({ waitlist := db.waitlist ++ [⟨newId, name, jsToLowerCase email, hub, now⟩],
     wseq := newId },
   newId)

/-- V1 `POST /api/waitlist`: parse, `await insertWaitlist`,
`await sendMail`, answer `{ok:true, id}`; any throw along the way (zod
issue list, insert rejection, or — when an SMTP transport is configured —
a delivery rejection) falls into the single `catch` and is answered with
`400 {ok:false, error: err.message || "Invalid request"}`. -/
def postWaitlistV1 (db : V1DB) (inp : WaitInputV1) (now : String)
    (transportSet : Bool) (insertErr mailErr : Option String) :
    V1DB × SubmitResp × List String :=
  match waitParseV1 inp with
  | .error issues =>
    (db, { status := 400, ok := false,
           error := some (errMessageOr (zodV1Message issues)) }, [])
  | .ok (name, email, hub) =>
    match insertErr with
    | some m => (db, { status := 400, ok := false, error := some (errMessageOr m) }, [])
    | none =>
      let ins := insertWaitlistV1 db name email hub now
      if transportSet then
        match mailErr with
        | some m =>
          (ins.1, { status := 400, ok := false, error := some (errMessageOr m) }, [])
        | none => (ins.1, { status := 200, ok := true, id := some ins.2 }, [])
      else
        (ins.1, { status := 200, ok := true, id := some ins.2 },
         ["SMTP not set - skipping email to: " ++ email])

/-! ## P6: the server variant in `src/unnamed/part_006`

Its `waitlist` table has no status column, its `requireAdminKey` lets
every request through when `ADMIN_KEY` is not set (`dev mode`), and its
admin listing has no `LIMIT` clause. -/

structure P6Row where
  id : Nat
  name : String
  email : String
  city : String
  created_at : String
deriving DecidableEq, Repr

/-- P6 `requireAdminKey`: `if (!expected) return next(); // if not set,
allow (dev mode)` — absence of a configured key lets the request through. -/
def requireAdminKeyDev (adminKeyVar : Option String) (hdr : Option String) : Gate :=
  let expected := jsTrim (adminKeyVar.getD "")
  if expected = "" then .ok
  else
    let got := jsTrim (hdr.getD "")
    if got ≠ "" ∧ got = expected then .ok else .reject 401 "Unauthorized"

structure P6ListResp where
  status : Nat
  ok : Bool
  error : Option String := none
  items : List P6Row := []
deriving DecidableEq, Repr

/-- P6 `GET /api/admin/waitlist`: `SELECT id, name, email, city,
created_at FROM waitlist ORDER BY id DESC` — every row, no limit. -/
def p6GetAdminWaitlist (adminKeyVar hdr : Option String) (rows : List P6Row)
    (dbErr : Option String) : P6ListResp :=
  match requireAdminKeyDev adminKeyVar hdr with
  | .reject st m => { status := st, ok := false, error := some m }
  | .ok =>
    match dbErr with
    | some _ => { status := 500, ok := false, error := some "Database error" }
    | none => { status := 200, ok := true, items := sortByKeyDesc P6Row.id rows }

/-! ## String containment -/

/-- `sub` is a prefix of the character list. -/
def charsPrefix : List Char → List Char → Bool
  | [], _ => true
  | _ :: _, [] => false
  | a :: s, b :: t => a == b && charsPrefix s t

/-- `sub` occurs contiguously somewhere in the character list. -/
def charsWithin (sub : List Char) : List Char → Bool
  | [] => sub.isEmpty
  | c :: t => charsPrefix sub (c :: t) || charsWithin sub t

/-- The string `sub` occurs contiguously in `hay`. -/
def strContains (hay sub : String) : Bool :=
  charsWithin sub.data hay.data

/-! ## Concrete stores used as inputs of the test-scenario claims -/

def demoRow (n : Nat) : Row :=
  ⟨n, "name" ++ toString n, "a@x.com", "Lagos", "pending", "T"⟩

/-- A waitlist store holding five rows, inserted in id order 1..5. -/
def fiveRowStore : List Row :=
  [demoRow 1, demoRow 2, demoRow 3, demoRow 4, demoRow 5]

/-- A P6 waitlist store holding 501 rows. -/
def p6BigStore : List P6Row :=
  (List.range 501).map fun n => ⟨n + 1, "n", "e", "c", "T"⟩

/-! ## Helper lemmas: containment -/

theorem charsPrefix_refl (l : List Char) : charsPrefix l l = true := by
  induction l with
  | nil => rfl
  | cons a t ih => simp [charsPrefix, ih]

theorem charsPrefix_nil (p : List Char) (h : charsPrefix p [] = true) : p = [] := by
  cases p with
  | nil => rfl
  | cons a s => simp [charsPrefix] at h

theorem charsPrefix_append (p l m : List Char) (h : charsPrefix p l = true) :
    charsPrefix p (l ++ m) = true := by
  induction p generalizing l with
  | nil => rfl
  | cons a s ih =>
    cases l with
    | nil => simp [charsPrefix] at h
    | cons b t =>
      simp only [charsPrefix, Bool.and_eq_true] at h ⊢
      exact ⟨h.1, ih t h.2⟩

theorem charsPrefix_trans (p q r : List Char) (h1 : charsPrefix p q = true)
    (h2 : charsPrefix q r = true) : charsPrefix p r = true := by
  induction p generalizing q r with
  | nil => rfl
  | cons a s ih =>
    cases q with
    | nil => simp [charsPrefix] at h1
    | cons b t =>
      cases r with
      | nil => simp [charsPrefix] at h2
      | cons c u =>
        simp only [charsPrefix, Bool.and_eq_true, beq_iff_eq] at h1 h2 ⊢
        exact ⟨h1.1.trans h2.1, ih t u h1.2 h2.2⟩

theorem charsWithin_of_starts (p h : List Char) (hp : charsPrefix p h = true) :
    charsWithin p h = true := by
  cases h with
  | nil => simpa [charsWithin, List.isEmpty_iff] using charsPrefix_nil p hp
  | cons c t => simp [charsWithin, hp]

theorem charsWithin_cons (p : List Char) (c : Char) (t : List Char)
    (h : charsWithin p t = true) : charsWithin p (c :: t) = true := by
  simp [charsWithin, h]

theorem charsWithin_append_left (p h m : List Char) (hw : charsWithin p h = true) :
    charsWithin p (h ++ m) = true := by
  induction h with
  | nil =>
    simp only [charsWithin, List.isEmpty_iff] at hw
    subst hw
    exact charsWithin_of_starts [] _ rfl
  | cons c t ih =>
    simp only [charsWithin, Bool.or_eq_true] at hw
    rcases hw with hp | hw
    · exact charsWithin_of_starts _ _ (by simpa using charsPrefix_append p (c :: t) m hp)
    · exact charsWithin_cons _ _ _ (ih hw)

theorem charsWithin_append_right (p h m : List Char) (hw : charsWithin p m = true) :
    charsWithin p (h ++ m) = true := by
  induction h with
  | nil => simpa using hw
  | cons c t ih => exact charsWithin_cons _ _ _ ih

theorem charsWithin_of_starts_within (p q h : List Char)
    (hp : charsPrefix p q = true) (hw : charsWithin q h = true) :
    charsWithin p h = true := by
  induction h with
  | nil =>
    simp only [charsWithin, List.isEmpty_iff] at hw ⊢
    subst hw
    exact List.isEmpty_iff.2 (charsPrefix_nil p hp) |> fun hq => by
      simpa [List.isEmpty_iff] using charsPrefix_nil p hp
  | cons c t ih =>
    simp only [charsWithin, Bool.or_eq_true] at hw ⊢
    rcases hw with hq | hw
    · exact Or.inl (charsPrefix_trans p q (c :: t) hp hq)
    · exact Or.inr (ih hw)

theorem strContains_of_mem_joinSep (sep : String) (l : List String) (s : String)
    (h : s ∈ l) : strContains (joinSep sep l) s = true := by
  induction l with
  | nil => cases h
  | cons x xs ih =>
    rcases List.mem_cons.1 h with rfl | hx
    · cases xs with
      | nil => exact charsWithin_of_starts _ _ (charsPrefix_refl _)
      | cons y ys =>
        show charsWithin s.data (s ++ sep ++ joinSep sep (y :: ys)).data = true
        rw [String.data_append, String.data_append]
        exact charsWithin_append_left _ _ _
          (charsWithin_append_left _ _ _ (charsWithin_of_starts _ _ (charsPrefix_refl _)))
    · cases xs with
      | nil => cases hx
      | cons y ys =>
        show charsWithin s.data (x ++ sep ++ joinSep sep (y :: ys)).data = true
        rw [String.data_append]
        exact charsWithin_append_right _ _ _ (ih hx)

/-- A string starting with `sub` contains `sub`. -/
theorem strContains_append_head (sub rest : String) :
    strContains (sub ++ rest) sub = true := by
  show charsWithin sub.data (sub ++ rest).data = true
  rw [String.data_append]
  exact charsWithin_of_starts _ _ (charsPrefix_append _ _ _ (charsPrefix_refl _))

/-! ## Helper lemmas: `ORDER BY id DESC` -/

theorem mem_insertByKeyDesc {α : Type} (key : α → Nat) (r y : α) (l : List α)
    (h : y ∈ insertByKeyDesc key r l) : y = r ∨ y ∈ l := by
  induction l with
  | nil => simpa [insertByKeyDesc] using h
  | cons x xs ih =>
    by_cases hc : key x ≤ key r
    · simp only [insertByKeyDesc, if_pos hc] at h
      rcases List.mem_cons.1 h with rfl | h2
      · exact Or.inl rfl
      · exact Or.inr h2
    · simp only [insertByKeyDesc, if_neg hc] at h
      rcases List.mem_cons.1 h with rfl | h2
      · exact Or.inr (List.mem_cons_self _ _)
      · rcases ih h2 with h3 | h3
        · exact Or.inl h3
        · exact Or.inr (List.mem_cons_of_mem _ h3)

theorem length_insertByKeyDesc {α : Type} (key : α → Nat) (r : α) (l : List α) :
    (insertByKeyDesc key r l).length = l.length + 1 := by
  induction l with
  | nil => rfl
  | cons x xs ih =>
    by_cases hc : key x ≤ key r
    · simp [insertByKeyDesc, if_pos hc]
    · simp [insertByKeyDesc, if_neg hc, ih]

theorem length_sortByKeyDesc {α : Type} (key : α → Nat) (l : List α) :
    (sortByKeyDesc key l).length = l.length := by
  induction l with
  | nil => rfl
  | cons x xs ih =>
    show (insertByKeyDesc key x (sortByKeyDesc key xs)).length = xs.length + 1
    rw [length_insertByKeyDesc, ih]

theorem pairwise_insertByKeyDesc {α : Type} (key : α → Nat) (r : α) (l : List α)
    (h : l.Pairwise (fun a b => key b ≤ key a)) :
    (insertByKeyDesc key r l).Pairwise (fun a b => key b ≤ key a) := by
  induction l with
  | nil => simp [insertByKeyDesc]
  | cons x xs ih =>
    rcases List.pairwise_cons.1 h with ⟨hx, hxs⟩
    by_cases hc : key x ≤ key r
    · simp only [insertByKeyDesc, if_pos hc]
      refine List.pairwise_cons.2 ⟨?_, h⟩
      intro y hy
      rcases List.mem_cons.1 hy with rfl | hy2
      · exact hc
      · exact (hx y hy2).trans hc
    · simp only [insertByKeyDesc, if_neg hc]
      refine List.pairwise_cons.2 ⟨?_, ih hxs⟩
      intro y hy
      rcases mem_insertByKeyDesc key r y xs hy with rfl | hy2
      · exact Nat.le_of_lt (Nat.lt_of_not_le hc)
      · exact hx y hy2

theorem sorted_sortByKeyDesc {α : Type} (key : α → Nat) (l : List α) :
    (sortByKeyDesc key l).Pairwise (fun a b => key b ≤ key a) := by
  induction l with
  | nil => simp [sortByKeyDesc]
  | cons x xs ih => exact pairwise_insertByKeyDesc key x (sortByKeyDesc key xs) ih

/-- Appending a row with a strictly larger key sorts to the front. -/
theorem sortByKeyDesc_append_max {α : Type} (key : α → Nat) (x : α) (l : List α)
    (h : ∀ y ∈ l, key y < key x) :
    sortByKeyDesc key (l ++ [x]) = x :: sortByKeyDesc key l := by
  induction l with
  | nil => rfl
  | cons a t ih =>
    have ha : key a < key x := h a (List.mem_cons_self _ _)
    have ht : ∀ y ∈ t, key y < key x := fun y hy => h y (List.mem_cons_of_mem _ hy)
    show insertByKeyDesc key a (sortByKeyDesc key (t ++ [x])) =
      x :: insertByKeyDesc key a (sortByKeyDesc key t)
    rw [ih ht]
    simp [insertByKeyDesc, Nat.not_le.2 ha]

/-! ## Helper lemmas: `WHERE id=?` matching -/

theorem jsNumEq_fin_zero (m : Int) (n : Nat) :
    jsNumEq (JsNum.fin m 0) n = (m == (n : Int)) := by
  simp [jsNumEq]

theorem countP_fin_zero_of_nodup (rows : List Row) (i : Nat)
    (hnd : (rows.map Row.id).Nodup) (hm : i ∈ rows.map Row.id) :
    (rows.countP fun r => jsNumEq (JsNum.fin (i : Int) 0) r.id) = 1 := by
  have h1 : (rows.countP fun r => jsNumEq (JsNum.fin (i : Int) 0) r.id) =
      rows.countP fun r => r.id == i := by
    refine List.countP_congr ?_
    intro r _
    rw [jsNumEq_fin_zero]
    constructor
    · intro h
      have h3 : (i : Int) = (r.id : Int) := beq_iff_eq.1 h
      exact beq_iff_eq.2 (by exact_mod_cast h3.symm)
    · intro h
      have h3 : r.id = i := beq_iff_eq.1 h
      exact beq_iff_eq.2 (by exact_mod_cast h3.symm)
  rw [h1]
  have h2 : (rows.countP fun r => r.id == i) = List.count i (rows.map Row.id) := by
    rw [List.count_eq_countP, List.countP_map]
    rfl
  rw [h2]
  exact List.count_eq_one_of_mem hnd hm

theorem mem_sqlUpdateStatusW (rows : List Row) (st : String) (idv : JsNum)
    (r2 : Row) (h : r2 ∈ (sqlUpdateStatusW rows st idv).1) :
    (jsNumEq idv r2.id = true ∧ r2.status = st) ∨
    (jsNumEq idv r2.id = false ∧ r2 ∈ rows) := by
  rcases List.mem_map.1 h with ⟨r, hr, he⟩
  by_cases hm : jsNumEq idv r.id = true
  · left
    rw [if_pos hm] at he
    subst he
    exact ⟨hm, rfl⟩
  · right
    rw [if_neg hm] at he
    subst he
    exact ⟨Bool.not_eq_true _ ▸ (Bool.eq_false_iff.2 hm), hr⟩

theorem mem_sqlUpdateStatusC (rows : List CRow) (st : String) (idv : JsNum)
    (r2 : CRow) (h : r2 ∈ (sqlUpdateStatusC rows st idv).1) :
    (jsNumEq idv r2.id = true ∧ r2.status = st) ∨
    (jsNumEq idv r2.id = false ∧ r2 ∈ rows) := by
  rcases List.mem_map.1 h with ⟨r, hr, he⟩
  by_cases hm : jsNumEq idv r.id = true
  · left
    rw [if_pos hm] at he
    subst he
    exact ⟨hm, rfl⟩
  · right
    rw [if_neg hm] at he
    subst he
    exact ⟨Bool.not_eq_true _ ▸ (Bool.eq_false_iff.2 hm), hr⟩

/-- An update that matches no row leaves the table unchanged and reports
zero changes. -/
theorem sqlUpdateStatusW_no_match (rows : List Row) (st : String) (idv : JsNum)
    (h : ∀ r ∈ rows, jsNumEq idv r.id = false) :
    sqlUpdateStatusW rows st idv = (rows, 0) := by
  unfold sqlUpdateStatusW
  have h1 : (rows.map fun r => if jsNumEq idv r.id then { r with status := st } else r)
      = rows := by
    calc (rows.map fun r => if jsNumEq idv r.id then { r with status := st } else r)
        = rows.map id := List.map_congr_left (fun r hr => by simp [h r hr])
      _ = rows := List.map_id rows
  have h2 : (rows.countP fun r => jsNumEq idv r.id) = 0 :=
    List.countP_eq_zero.2 (fun a ha => by simp [h a ha])
  rw [h1, h2]

/-- A delete that matches no row leaves the table unchanged and reports
zero changes. -/
theorem sqlDeleteW_no_match (rows : List Row) (idv : JsNum)
    (h : ∀ r ∈ rows, jsNumEq idv r.id = false) :
    sqlDeleteW rows idv = (rows, 0) := by
  unfold sqlDeleteW
  have h1 : (rows.filter fun r => !jsNumEq idv r.id) = rows :=
    List.filter_eq_self.2 (fun a ha => by simp [h a ha])
  have h2 : (rows.countP fun r => jsNumEq idv r.id) = 0 :=
    List.countP_eq_zero.2 (fun a ha => by simp [h a ha])
  rw [h1, h2]

/-- After a delete, no surviving row matches the deleted id. -/
theorem sqlDeleteW_removes (rows : List Row) (idv : JsNum) (r : Row)
    (h : r ∈ (sqlDeleteW rows idv).1) : jsNumEq idv r.id = false := by
  have := List.of_mem_filter h
  simpa using this

/-- Status updates keep the list of row ids. -/
theorem map_id_sqlUpdateStatusW (rows : List Row) (st : String) (idv : JsNum) :
    (sqlUpdateStatusW rows st idv).1.map Row.id = rows.map Row.id := by
  unfold sqlUpdateStatusW
  rw [List.map_map]
  refine List.map_congr_left (fun r _ => ?_)
  by_cases hm : jsNumEq idv r.id = true
  · simp [hm]
  · simp [hm]

/-! ## Helper lemmas: zod parsing -/

theorem fieldIssues_path (f : String) (v : Option String) (c : String → List String) :
    ∀ i ∈ fieldIssues f v c, i.path = [f] := by
  intro i hi
  cases v with
  | none =>
    simp only [fieldIssues, List.mem_singleton] at hi
    subst hi
    rfl
  | some s =>
    simp only [fieldIssues] at hi
    rcases List.mem_map.1 hi with ⟨m, _, he⟩
    subst he
    rfl

theorem waitParse_ok_of_isEmpty (inp : WaitInput)
    (hv : (waitIssues inp).isEmpty = true) :
    ∃ n e c, inp.name = some n ∧ inp.email = some e ∧ inp.city = some c ∧
      waitParse inp = .ok (n, e, c) := by
  cases hn : inp.name with
  | none =>
    exfalso
    simp [waitIssues, fieldIssues, hn] at hv
  | some n =>
    cases he : inp.email with
    | none =>
      exfalso
      simp [waitIssues, fieldIssues, he, List.isEmpty_iff] at hv
    | some e =>
      cases hc : inp.city with
      | none =>
        exfalso
        simp [waitIssues, fieldIssues, hc, List.isEmpty_iff] at hv
      | some c =>
        refine ⟨n, e, c, rfl, rfl, rfl, ?_⟩
        simp only [waitParse, hn, he, hc, hv, if_pos]

theorem waitParse_error_of_ne (inp : WaitInput) (h : waitIssues inp ≠ []) :
    waitParse inp = .error (waitIssues inp) := by
  have hne : (waitIssues inp).isEmpty ≠ true := by
    simpa [List.isEmpty_iff] using h
  cases hn : inp.name with
  | none => simp only [waitParse, hn]
  | some n =>
    cases he : inp.email with
    | none => simp only [waitParse, hn, he]
    | some e =>
      cases hc : inp.city with
      | none => simp only [waitParse, hn, he, hc]
      | some c =>
        simp only [waitParse, hn, he, hc, if_neg hne]

theorem waitParseV1_ok_of_isEmpty (inp : WaitInputV1)
    (hv : (waitIssuesV1 inp).isEmpty = true) :
    ∃ n e c, inp.name = some n ∧ inp.email = some e ∧ inp.hub = some c ∧
      waitParseV1 inp = .ok (n, e, c) := by
  cases hn : inp.name with
  | none =>
    exfalso
    simp [waitIssuesV1, fieldIssues, hn] at hv
  | some n =>
    cases he : inp.email with
    | none =>
      exfalso
      simp [waitIssuesV1, fieldIssues, he, List.isEmpty_iff] at hv
    | some e =>
      cases hc : inp.hub with
      | none =>
        exfalso
        simp [waitIssuesV1, fieldIssues, hc, List.isEmpty_iff] at hv
      | some c =>
        refine ⟨n, e, c, rfl, rfl, rfl, ?_⟩
        simp only [waitParseV1, hn, he, hc, hv, if_pos]

/-- Every issue tagged with field path `[f]` makes the field name `f`
occur in `zodErrorToMessage`. -/
theorem strContains_field (f : String) (hne : f ≠ "") (issues : List Issue) (i : Issue)
    (hi : i ∈ issues) (hp : i.path = [f]) :
    strContains (zodErrorToMessage issues) f = true := by
  have hel : (f ++ ": " ++ i.message) ∈ issues.map (fun e =>
      (if joinSep "." e.path = "" then "field" else joinSep "." e.path) ++ ": " ++ e.message) := by
    refine List.mem_map.2 ⟨i, hi, ?_⟩
    rw [hp]
    have hj : joinSep "." [f] = f := rfl
    rw [hj, if_neg hne]
  have hjoin := strContains_of_mem_joinSep " | " _ _ hel
  have hpre : charsPrefix f.data (f ++ ": " ++ i.message).data = true := by
    rw [String.data_append, String.data_append, List.append_assoc]
    exact charsPrefix_append _ _ _ (charsPrefix_refl _)
  exact charsWithin_of_starts_within _ _ _ hpre hjoin

/-- Every offending field of a waitlist input has an issue carrying its
path in the collected issue list. -/
theorem offending_field_issue (inp : WaitInput) (f : String)
    (hf : f ∈ offendingWaitFields inp) :
    f ≠ "" ∧ ∃ i ∈ waitIssues inp, i.path = [f] := by
  unfold offendingWaitFields at hf
  rcases List.mem_append.1 hf with hf1 | hfc
  · rcases List.mem_append.1 hf1 with hfn | hfe
    · by_cases hc : fieldIssues "name" inp.name (minMaxChecks 2 80) = []
      · rw [if_pos hc] at hfn
        cases hfn
      · rw [if_neg hc] at hfn
        have hfeq := List.mem_singleton.1 hfn
        subst hfeq
        refine ⟨by decide, ?_⟩
        rcases List.exists_mem_of_ne_nil _ hc with ⟨i, hi⟩
        exact ⟨i, List.mem_append_left _ (List.mem_append_left _ hi),
          fieldIssues_path _ _ _ i hi⟩
    · by_cases hc : fieldIssues "email" inp.email (emailChecks 120) = []
      · rw [if_pos hc] at hfe
        cases hfe
      · rw [if_neg hc] at hfe
        have hfeq := List.mem_singleton.1 hfe
        subst hfeq
        refine ⟨by decide, ?_⟩
        rcases List.exists_mem_of_ne_nil _ hc with ⟨i, hi⟩
        exact ⟨i, List.mem_append_left _ (List.mem_append_right _ hi),
          fieldIssues_path _ _ _ i hi⟩
  · by_cases hc : fieldIssues "city" inp.city (minMaxChecks 2 120) = []
    · rw [if_pos hc] at hfc
      cases hfc
    · rw [if_neg hc] at hfc
      have hfeq := List.mem_singleton.1 hfc
      subst hfeq
      refine ⟨by decide, ?_⟩
      rcases List.exists_mem_of_ne_nil _ hc with ⟨i, hi⟩
      exact ⟨i, List.mem_append_right _ hi, fieldIssues_path _ _ _ i hi⟩

/-! ## Claims -/

/-- C1, counterexample: in the `part_006` variant, with no `ADMIN_KEY`
configured on the server and no credential supplied by the client, the
admin listing request succeeds (`ok = true` with the row list), so an
admin-gated request with no configured credential is not rejected there:
the claim that absence of a configured secret always fails closed is false
for that variant. -/
theorem C1_fail_open_counterexample :
    p6GetAdminWaitlist none none [⟨1, "Ada", "a@x.com", "Lagos", "T"⟩] none =
      { status := 200, ok := true, items := [⟨1, "Ada", "a@x.com", "Lagos", "T"⟩] } := by
  decide

/-- C1 as amended: in the main V2 server of `src/server.js`, absence of a
configured admin credential fails closed — every admin-gated call (list,
accept, reject, delete on the waitlist, accept on the couriers) is
answered `500 ADMIN_KEY not set on server`, never a success and with no
state change; the `part_006` variant instead fails open: with no
configured key its middleware lets every request through. -/
theorem C1_amended (env : Env) (hdr : Option String) (db : DB) (idStr : String)
    (dbErr : Option String) (h : jsTrim (env.adminKeyVar.getD "") = "") :
    getAdminWaitlist env hdr db dbErr =
      { status := 500, ok := false, error := some "ADMIN_KEY not set on server" } ∧
    patchAcceptWaitlist env hdr db idStr dbErr =
      (db, { status := 500, ok := false, error := some "ADMIN_KEY not set on server" }) ∧
    patchRejectWaitlist env hdr db idStr dbErr =
      (db, { status := 500, ok := false, error := some "ADMIN_KEY not set on server" }) ∧
    deleteWaitlist env hdr db idStr dbErr =
      (db, { status := 500, ok := false, error := some "ADMIN_KEY not set on server" }) ∧
    patchAcceptCourier env hdr db idStr dbErr =
      (db, { status := 500, ok := false, error := some "ADMIN_KEY not set on server" }) ∧
    (∀ akv hdr2 : Option String, jsTrim (akv.getD "") = "" →
      requireAdminKeyDev akv hdr2 = .ok) := by
  have hk : requireAdminKey env hdr = .reject 500 "ADMIN_KEY not set on server" := by
    simp [requireAdminKey, h]
  refine ⟨?_, ?_, ?_, ?_, ?_, ?_⟩
  · simp [getAdminWaitlist, hk]
  · simp [patchAcceptWaitlist, hk]
  · simp [patchRejectWaitlist, hk]
  · simp [deleteWaitlist, hk]
  · simp [patchAcceptCourier, hk]
  · intro akv hdr2 h2
    simp [requireAdminKeyDev, h2]

/-- C1 amended, witness: with `ADMIN_KEY` unset the V2 admin listing is
rejected with the misconfiguration error. -/
theorem C1_amended_witness :
    jsTrim ((none : Option String).getD "") = "" ∧
    getAdminWaitlist {} none {} none =
      { status := 500, ok := false, error := some "ADMIN_KEY not set on server" } :=
  ⟨by decide, (C1_amended {} none {} "1" none (by decide)).1⟩

/-- C2, counterexample: starting from an empty V2 store, submit a valid
entry, accept it, then reject it: after the accept the row's status is
`accepted`, and the subsequent reject moves it to `rejected` — an
accepted→rejected transition, which the claim says no operation performs. -/
theorem C2_accepted_to_rejected_counterexample :
    (((patchAcceptWaitlist ⟨some "k", none, false⟩ (some "k")
        (postWaitlist ⟨some "k", none, false⟩ {}
          ⟨some "Ada Lovelace", some "ADA@X.COM", some "Lagos"⟩ "T" none none).1
        "1" none).1).waitlist.map Row.status = ["accepted"]) ∧
    (((patchRejectWaitlist ⟨some "k", none, false⟩ (some "k")
        (patchAcceptWaitlist ⟨some "k", none, false⟩ (some "k")
          (postWaitlist ⟨some "k", none, false⟩ {}
            ⟨some "Ada Lovelace", some "ADA@X.COM", some "Lagos"⟩ "T" none none).1
          "1" none).1
        "1" none).1).waitlist.map Row.status = ["rejected"]) := by
  decide

/-- C2 as amended: the accept and reject updates are unconditional writes
`UPDATE ... SET status=st WHERE id=?`: in the resulting table every
matched row has status `st` regardless of its prior status (in particular
an accepted row is moved to rejected by a reject and conversely), and
every unmatched row is returned unchanged; this holds on both the
waitlist and the couriers tables. -/
theorem C2_amended (rows : List Row) (crows : List CRow) (st : String) (idv : JsNum) :
    (∀ r2 ∈ (sqlUpdateStatusW rows st idv).1,
        (jsNumEq idv r2.id = true ∧ r2.status = st) ∨
        (jsNumEq idv r2.id = false ∧ r2 ∈ rows)) ∧
    (∀ r2 ∈ (sqlUpdateStatusC crows st idv).1,
        (jsNumEq idv r2.id = true ∧ r2.status = st) ∨
        (jsNumEq idv r2.id = false ∧ r2 ∈ crows)) :=
  ⟨fun r2 h => mem_sqlUpdateStatusW rows st idv r2 h,
   fun r2 h => mem_sqlUpdateStatusC crows st idv r2 h⟩

/-- C2 amended, witness: rejecting a store whose single row is already
accepted yields a row whose status is `rejected`. -/
theorem C2_amended_witness :
    (jsNumEq (jsNumber "1") (⟨1, "n", "e", "c", "rejected", "T"⟩ : Row).id = true ∧
      (⟨1, "n", "e", "c", "rejected", "T"⟩ : Row).status = "rejected") ∨
    (jsNumEq (jsNumber "1") (⟨1, "n", "e", "c", "rejected", "T"⟩ : Row).id = false ∧
      (⟨1, "n", "e", "c", "rejected", "T"⟩ : Row) ∈
        [(⟨1, "n", "e", "c", "accepted", "T"⟩ : Row)]) :=
  (C2_amended [⟨1, "n", "e", "c", "accepted", "T"⟩] [] "rejected" (jsNumber "1")).1
    ⟨1, "n", "e", "c", "rejected", "T"⟩ (by decide)

/-- C8, counterexample: the `part_006` admin listing has no `LIMIT`
clause: on a store holding 501 rows it returns all 501 of them, exceeding
every fixed cap in the claimed 200–500 range, so the listing length is
not bounded regardless of table growth. -/
theorem C8_unbounded_counterexample :
    (p6GetAdminWaitlist none none p6BigStore none).items.length = 501 ∧
    500 < (p6GetAdminWaitlist none none p6BigStore none).items.length := by
  have hk : requireAdminKeyDev none none = Gate.ok := by decide
  have hitems : (p6GetAdminWaitlist none none p6BigStore none).items =
      sortByKeyDesc P6Row.id p6BigStore := by
    simp only [p6GetAdminWaitlist, hk]
  have hlen : (p6GetAdminWaitlist none none p6BigStore none).items.length = 501 := by
    rw [hitems, length_sortByKeyDesc]
    simp [p6BigStore]
  exact ⟨hlen, by rw [hlen]; decide⟩

/-- C8 as amended: the V2 admin listing returns the rows ordered newest
first by id and capped at the fixed `LIMIT 200` (no client-supplied
limit), so its length never exceeds 200; the `part_006` variant returns
every row newest first with no cap; and the underlying
`ORDER BY id DESC LIMIT n` semantics with limit 2 on the five-row store
returns exactly the two most-recently-inserted rows, newest first. -/
theorem C8_amended (env : Env) (hdr : Option String) (db : DB)
    (akv hdr6 : Option String) (rows6 : List P6Row)
    (hauth : authOk env hdr) (hauth6 : requireAdminKeyDev akv hdr6 = Gate.ok) :
    ((getAdminWaitlist env hdr db none).items = sqlWaitlistPage db.waitlist 200 ∧
     (getAdminWaitlist env hdr db none).items.length ≤ 200 ∧
     (getAdminWaitlist env hdr db none).items.Pairwise (fun a b => b.id ≤ a.id)) ∧
    ((p6GetAdminWaitlist akv hdr6 rows6 none).items.length = rows6.length ∧
     (p6GetAdminWaitlist akv hdr6 rows6 none).items.Pairwise (fun a b => b.id ≤ a.id)) ∧
    sqlWaitlistPage fiveRowStore 2 = [demoRow 5, demoRow 4] := by
  have hk : requireAdminKey env hdr = Gate.ok := hauth
  have hitems : (getAdminWaitlist env hdr db none).items =
      sqlWaitlistPage db.waitlist 200 := by
    simp only [getAdminWaitlist, hk]
  have h6 : (p6GetAdminWaitlist akv hdr6 rows6 none).items =
      sortByKeyDesc P6Row.id rows6 := by
    simp only [p6GetAdminWaitlist, hauth6]
  refine ⟨⟨hitems, ?_, ?_⟩, ⟨?_, ?_⟩, ?_⟩
  · rw [hitems]
    exact List.length_take_le 200 _
  · rw [hitems]
    exact List.Pairwise.sublist (List.take_sublist _ _)
      (sorted_sortByKeyDesc Row.id db.waitlist)
  · rw [h6, length_sortByKeyDesc]
  · rw [h6]
    exact sorted_sortByKeyDesc P6Row.id rows6
  · decide

/-- C8 amended, witness: on a five-row store the V2 listing equals the
200-capped page. -/
theorem C8_amended_witness :
    (authOk ⟨some "k", none, false⟩ (some "k") ∧
      requireAdminKeyDev none none = Gate.ok) ∧
    (getAdminWaitlist ⟨some "k", none, false⟩ (some "k")
        ⟨fiveRowStore, [], 5, 0⟩ none).items = sqlWaitlistPage fiveRowStore 200 :=
  ⟨⟨by decide, by decide⟩,
   ((C8_amended ⟨some "k", none, false⟩ (some "k") ⟨fiveRowStore, [], 5, 0⟩
     none none [] (by decide) (by decide)).1).1⟩

/-- C9, counterexample: the V1 submit handler answers an insert fault
with `res.status(400).json({ok:false, error: err.message})`: the client
receives the raw SQLite driver message — which here contains the internal
database file path `/tmp/zigaswift.sqlite` — with status 400, not a
sanitized 500 body. -/
theorem C9_raw_driver_error_counterexample :
    (postWaitlistV1 {} ⟨some "Ada Lovelace", some "ADA@X.COM", some "Lagos"⟩ "T" false
        (some "SQLITE_CANTOPEN: unable to open database file /tmp/zigaswift.sqlite")
        none).2.1 =
      { status := 400, ok := false,
        error := some "SQLITE_CANTOPEN: unable to open database file /tmp/zigaswift.sqlite" } ∧
    strContains "SQLITE_CANTOPEN: unable to open database file /tmp/zigaswift.sqlite"
      "/tmp/" = true :=
  ⟨by decide, by decide⟩

/-- C9 as amended: in the V2 handlers every persistence fault is answered
with the fixed structured body `500 {ok:false, error:"Database error"}` —
the same constant for every driver message `m`, which reaches only the
server log, so no path, driver text or exception reaches the client; the
V1 submit handler instead exposes the driver message verbatim (through
`err.message || "Invalid request"`) with status 400. -/
theorem C9_amended (env : Env) (hdr : Option String) (db : DB) (inp : WaitInput)
    (now idStr m : String) (mailErr : Option String)
    (hv : (waitIssues inp).isEmpty = true) (hauth : authOk env hdr) :
    postWaitlist env db inp now (some m) mailErr =
      (db, { status := 500, ok := false, error := some "Database error" },
       ["❌ Waitlist insert failed: " ++ m]) ∧
    getAdminWaitlist env hdr db (some m) =
      { status := 500, ok := false, error := some "Database error" } ∧
    patchAcceptWaitlist env hdr db idStr (some m) =
      (db, { status := 500, ok := false, error := some "Database error" }) ∧
    patchRejectWaitlist env hdr db idStr (some m) =
      (db, { status := 500, ok := false, error := some "Database error" }) ∧
    deleteWaitlist env hdr db idStr (some m) =
      (db, { status := 500, ok := false, error := some "Database error" }) ∧
    (∀ (dbv1 : V1DB) (inpv1 : WaitInputV1) (tset : Bool) (me : Option String),
      (waitIssuesV1 inpv1).isEmpty = true →
      (postWaitlistV1 dbv1 inpv1 now tset (some m) me).2.1 =
        { status := 400, ok := false, error := some (errMessageOr m) }) := by
  obtain ⟨n, e, c, hn, he, hc, hok⟩ := waitParse_ok_of_isEmpty inp hv
  have hk : requireAdminKey env hdr = Gate.ok := hauth
  refine ⟨?_, ?_, ?_, ?_, ?_, ?_⟩
  · simp only [postWaitlist, hok]
  · simp only [getAdminWaitlist, hk]
  · simp only [patchAcceptWaitlist, hk]
  · simp only [patchRejectWaitlist, hk]
  · simp only [deleteWaitlist, hk]
  · intro dbv1 inpv1 tset me hv1
    obtain ⟨n1, e1, c1, hn1, he1, hc1, hok1⟩ := waitParseV1_ok_of_isEmpty inpv1 hv1
    simp only [postWaitlistV1, hok1]

/-- C9 amended, witness: a V2 insert fault yields the constant sanitized
body, the driver message going only to the log. -/
theorem C9_amended_witness :
    ((waitIssues ⟨some "Ada Lovelace", some "ADA@X.COM", some "Lagos"⟩).isEmpty = true ∧
      authOk ⟨some "k", none, false⟩ (some "k")) ∧
    postWaitlist ⟨some "k", none, false⟩ {}
        ⟨some "Ada Lovelace", some "ADA@X.COM", some "Lagos"⟩ "T"
        (some "disk I/O error") none =
      ({}, { status := 500, ok := false, error := some "Database error" },
       ["❌ Waitlist insert failed: disk I/O error"]) :=
  ⟨⟨by decide, by decide⟩,
   (C9_amended ⟨some "k", none, false⟩ (some "k") {}
     ⟨some "Ada Lovelace", some "ADA@X.COM", some "Lagos"⟩ "T" "1" "disk I/O error"
     none (by decide) (by decide)).1⟩

/-- C10: an admin mutation whose `:id` path segment is not a numeric
string is coerced to `NaN` by `Number()`, the `WHERE id=?` clause matches
no row, and the handlers answer the success shapes `{ok:true, updated:0}`
and `{ok:true, deleted:0}` with the store unchanged — not a validation
error and not a thrown exception. -/
theorem C10_nan_id (env : Env) (hdr : Option String) (db : DB) (idStr : String)
    (hauth : authOk env hdr) (hnan : jsNumber idStr = JsNum.nan) :
    patchAcceptWaitlist env hdr db idStr none =
      (db, { status := 200, ok := true, updated := some 0 }) ∧
    patchRejectWaitlist env hdr db idStr none =
      (db, { status := 200, ok := true, updated := some 0 }) ∧
    deleteWaitlist env hdr db idStr none =
      (db, { status := 200, ok := true, deleted := some 0 }) := by
  have hfalse : ∀ r ∈ db.waitlist, jsNumEq (jsNumber idStr) r.id = false := by
    intro r _
    rw [hnan]
    rfl
  have hupd := sqlUpdateStatusW_no_match db.waitlist "accepted" (jsNumber idStr) hfalse
  have hupd2 := sqlUpdateStatusW_no_match db.waitlist "rejected" (jsNumber idStr) hfalse
  have hdel := sqlDeleteW_no_match db.waitlist (jsNumber idStr) hfalse
  have hk : requireAdminKey env hdr = Gate.ok := hauth
  refine ⟨?_, ?_, ?_⟩
  · simp only [patchAcceptWaitlist, hupd, hk]
  · simp only [patchRejectWaitlist, hupd2, hk]
  · simp only [deleteWaitlist, hdel, hk]

/-- C3, counterexample: in the V1 handler of `src/server.js` (which
`await`s `sendMail` inside the same try/catch), a delivery failure after a
successful insert does change the response: the caller receives a 400
error carrying the mail error instead of the success body, even though
the inserted row is committed and kept. -/
theorem C3_mail_failure_counterexample :
    (postWaitlistV1 {} ⟨some "Ada Lovelace", some "ADA@X.COM", some "Lagos"⟩ "T"
        true none (some "connect ECONNREFUSED")).2.1 =
      { status := 400, ok := false, error := some "connect ECONNREFUSED" } ∧
    (postWaitlistV1 {} ⟨some "Ada Lovelace", some "ADA@X.COM", some "Lagos"⟩ "T"
        true none (some "connect ECONNREFUSED")).1.waitlist.length = 1 :=
  ⟨by decide, by decide⟩

/-- C3 as amended: in the V2 handler (`sendMailSafe`, fire-and-forget) a
delivery failure never changes anything observable by the caller — for
every fault oracle the response is the success body with the assigned id,
the store equals the store of a fault-free run (one row added), and the
failure is only written to the log; in the V1 handler (awaited
`sendMail`) a delivery failure after the committed insert turns the
response into a 400 error, although the insert still is not rolled back. -/
theorem C3_amended (env : Env) (db : DB) (inp : WaitInput) (now : String)
    (mailErr : Option String) (hv : (waitIssues inp).isEmpty = true) :
    ((postWaitlist env db inp now none mailErr).2.1 =
      { status := 200, ok := true, id := some (db.wseq + 1) }) ∧
    ((postWaitlist env db inp now none mailErr).1 =
      (postWaitlist env db inp now none none).1) ∧
    ((postWaitlist env db inp now none mailErr).1.waitlist.length =
      db.waitlist.length + 1) ∧
    (∀ m, mailErr = some m → env.smtpConfigured = true →
      ("⚠️ Email send failed: " ++ m) ∈ (postWaitlist env db inp now none mailErr).2.2) ∧
    (∀ (dbv1 : V1DB) (inpv1 : WaitInputV1) (m : String),
      (waitIssuesV1 inpv1).isEmpty = true →
      ((postWaitlistV1 dbv1 inpv1 now true none (some m)).2.1.ok = false ∧
       (postWaitlistV1 dbv1 inpv1 now true none (some m)).2.1.status = 400 ∧
       (postWaitlistV1 dbv1 inpv1 now true none (some m)).1.waitlist.length =
         dbv1.waitlist.length + 1)) := by
  obtain ⟨n, e, c, hn, he, hc, hok⟩ := waitParse_ok_of_isEmpty inp hv
  have hstep : ∀ me, postWaitlist env db inp now none me =
      ((insertWaitlist db n e c now).1,
       { status := 200, ok := true, id := some (insertWaitlist db n e c now).2 },
       sendMailSafe env.smtpConfigured me e "Welcome to ZigaSwift 🚀" "" ++
         (if ADMIN_NOTIFY_EMAIL env ≠ "" then
           sendMailSafe env.smtpConfigured me (ADMIN_NOTIFY_EMAIL env)
             "🟢 New Waitlist Signup — ZigaSwift" "" else [])) := by
    intro me
    simp only [postWaitlist, hok]
  refine ⟨?_, ?_, ?_, ?_, ?_⟩
  · rw [hstep]
    rfl
  · rw [hstep, hstep]
  · rw [hstep]
    simp [insertWaitlist]
  · intro m hm hs
    subst hm
    rw [hstep, hs]
    exact List.mem_append_left _ (by simp [sendMailSafe])
  · intro dbv1 inpv1 m hv1
    obtain ⟨n1, e1, c1, hn1, he1, hc1, hok1⟩ := waitParseV1_ok_of_isEmpty inpv1 hv1
    refine ⟨?_, ?_, ?_⟩
    · simp [postWaitlistV1, hok1]
    · simp [postWaitlistV1, hok1]
    · simp [postWaitlistV1, hok1, insertWaitlistV1]

/-- C3 amended, witness: a failed delivery still yields `{ok:true, id:1}`
on an empty store. -/
theorem C3_amended_witness :
    (waitIssues ⟨some "Ada Lovelace", some "ADA@X.COM", some "Lagos"⟩).isEmpty = true ∧
    (postWaitlist {} {} ⟨some "Ada Lovelace", some "ADA@X.COM", some "Lagos"⟩ "T" none
        (some "boom")).2.1 = { status := 200, ok := true, id := some 1 } :=
  ⟨by decide,
   (C3_amended {} {} ⟨some "Ada Lovelace", some "ADA@X.COM", some "Lagos"⟩ "T"
     (some "boom") (by decide)).1⟩

/-- C4, counterexample: after the V2 submit of
`{name:"Ada Lovelace", email:"ADA@X.COM", city:"Lagos"}` succeeds, the
admin listing holds exactly one row, whose email is the verbatim
`ADA@X.COM` — no row has the lower-cased `ada@x.com` the claim requires
(only the V1 `insertWaitlist` lower-cases, and its schema has `hub` and
no status column). -/
theorem C4_no_lowercase_counterexample :
    ((getAdminWaitlist ⟨some "k", none, false⟩ (some "k")
        (postWaitlist ⟨some "k", none, false⟩ {}
          ⟨some "Ada Lovelace", some "ADA@X.COM", some "Lagos"⟩ "T" none none).1
        none).items.map Row.email = ["ADA@X.COM"]) ∧
    (∀ r ∈ (getAdminWaitlist ⟨some "k", none, false⟩ (some "k")
        (postWaitlist ⟨some "k", none, false⟩ {}
          ⟨some "Ada Lovelace", some "ADA@X.COM", some "Lagos"⟩ "T" none none).1
        none).items, r.email ≠ "ada@x.com") :=
  ⟨by decide, by decide⟩

/-- C4 as amended: after the V2 submit of
`{name:"Ada Lovelace", email:"ADA@X.COM", city:"Lagos"}` succeeds (on any
store satisfying the AUTOINCREMENT invariant `id ≤ seq`), the admin
listing includes the created row with email stored verbatim as
`ADA@X.COM` (not lower-cased) and status `pending`. -/
theorem C4_amended (env env2 : Env) (hdr : Option String) (db : DB) (now : String)
    (mailErr : Option String)
    (hseq : ∀ r ∈ db.waitlist, r.id ≤ db.wseq)
    (hauth : authOk env2 hdr) :
    (postWaitlist env db ⟨some "Ada Lovelace", some "ADA@X.COM", some "Lagos"⟩ now
        none mailErr).2.1 =
      { status := 200, ok := true, id := some (db.wseq + 1) } ∧
    ∃ r ∈ (getAdminWaitlist env2 hdr
        (postWaitlist env db ⟨some "Ada Lovelace", some "ADA@X.COM", some "Lagos"⟩ now
          none mailErr).1 none).items,
      r.id = db.wseq + 1 ∧ r.name = "Ada Lovelace" ∧ r.email = "ADA@X.COM" ∧
        r.city = "Lagos" ∧ r.status = "pending" := by
  have hok : waitParse ⟨some "Ada Lovelace", some "ADA@X.COM", some "Lagos"⟩ =
      .ok ("Ada Lovelace", "ADA@X.COM", "Lagos") := rfl
  have hk2 : requireAdminKey env2 hdr = Gate.ok := hauth
  have hstep : postWaitlist env db ⟨some "Ada Lovelace", some "ADA@X.COM", some "Lagos"⟩
      now none mailErr =
      ((insertWaitlist db "Ada Lovelace" "ADA@X.COM" "Lagos" now).1,
       { status := 200, ok := true,
         id := some (insertWaitlist db "Ada Lovelace" "ADA@X.COM" "Lagos" now).2 },
       sendMailSafe env.smtpConfigured mailErr "ADA@X.COM" "Welcome to ZigaSwift 🚀" "" ++
         (if ADMIN_NOTIFY_EMAIL env ≠ "" then
           sendMailSafe env.smtpConfigured mailErr (ADMIN_NOTIFY_EMAIL env)
             "🟢 New Waitlist Signup — ZigaSwift" "" else [])) := by
    simp only [postWaitlist, hok]
  have hmax : ∀ y ∈ db.waitlist,
      Row.id y < Row.id (⟨db.wseq + 1, "Ada Lovelace", "ADA@X.COM", "Lagos", "pending", now⟩ : Row) :=
    fun y hy => Nat.lt_succ_of_le (hseq y hy)
  have hsort := sortByKeyDesc_append_max Row.id
    (⟨db.wseq + 1, "Ada Lovelace", "ADA@X.COM", "Lagos", "pending", now⟩ : Row) db.waitlist hmax
  refine ⟨by rw [hstep]; rfl, ?_⟩
  refine ⟨⟨db.wseq + 1, "Ada Lovelace", "ADA@X.COM", "Lagos", "pending", now⟩,
    ?_, rfl, rfl, rfl, rfl, rfl⟩
  rw [hstep]
  simp only [getAdminWaitlist, hk2, sqlWaitlistPage]
  show (⟨db.wseq + 1, "Ada Lovelace", "ADA@X.COM", "Lagos", "pending", now⟩ : Row) ∈
    (sortByKeyDesc Row.id (db.waitlist ++
      [⟨db.wseq + 1, "Ada Lovelace", "ADA@X.COM", "Lagos", "pending", now⟩])).take 200
  rw [hsort]
  show _ ∈ List.take (199 + 1) _
  rw [List.take_succ_cons]
  exact List.mem_cons_self _ _

/-- C4 amended, witness: on the empty store the submit answers
`{ok:true, id:1}`. -/
theorem C4_amended_witness :
    ((∀ r ∈ ({} : DB).waitlist, r.id ≤ ({} : DB).wseq) ∧
      authOk ⟨some "k", none, false⟩ (some "k")) ∧
    (postWaitlist {} {} ⟨some "Ada Lovelace", some "ADA@X.COM", some "Lagos"⟩ "T"
        none none).2.1 = { status := 200, ok := true, id := some 1 } :=
  ⟨⟨by decide, by decide⟩,
   (C4_amended {} ⟨some "k", none, false⟩ (some "k") {} "T" none
     (by decide) (by decide)).1⟩

/-- C5: on every input missing a required field or violating a field
constraint (equivalently: on which the schema collects at least one
issue), V2 submit performs no write at all — the store is returned
unchanged, validation happening entirely before the insert — and answers
400 with the `zodErrorToMessage` text, in which every offending field's
name occurs. -/
theorem C5_validation (env : Env) (db : DB) (inp : WaitInput) (now : String)
    (insertErr mailErr : Option String) (h : waitIssues inp ≠ []) :
    postWaitlist env db inp now insertErr mailErr =
      (db, { status := 400, ok := false,
             error := some (zodErrorToMessage (waitIssues inp)) }, []) ∧
    (∀ f ∈ offendingWaitFields inp,
      strContains (zodErrorToMessage (waitIssues inp)) f = true) := by
  constructor
  · simp only [postWaitlist, waitParse_error_of_ne inp h]
  · intro f hf
    obtain ⟨hne, i, hi, hp⟩ := offending_field_issue inp f hf
    exact strContains_field f hne (waitIssues inp) i hi hp

/-- C5, witness: an input with `name` absent, an invalid email and a
one-character city is rejected with 400, the store untouched, and the
message names all three offending fields. -/
theorem C5_validation_witness :
    waitIssues ⟨none, some "bad", some "x"⟩ ≠ [] ∧
    postWaitlist {} {} ⟨none, some "bad", some "x"⟩ "T" none none =
      ({}, { status := 400, ok := false,
             error := some (zodErrorToMessage (waitIssues ⟨none, some "bad", some "x"⟩)) },
       []) :=
  ⟨by decide, (C5_validation {} {} ⟨none, some "bad", some "x"⟩ "T" none none (by decide)).1⟩

/-- C6: accept is idempotent.  For the id of any existing row (the
`PRIMARY KEY` table invariant making ids unique), calling the accept
endpoint twice answers `{ok:true, updated:1}` both times — the second call
is not an error — and after both calls the row's status is `accepted`. -/
theorem C6_accept_idempotent (env : Env) (hdr : Option String) (db : DB)
    (idStr : String) (r : Row) (hauth : authOk env hdr)
    (hnd : (db.waitlist.map Row.id).Nodup) (hr : r ∈ db.waitlist)
    (hid : jsNumber idStr = JsNum.fin (r.id : Int) 0) :
    (patchAcceptWaitlist env hdr db idStr none).2 =
      { status := 200, ok := true, updated := some 1 } ∧
    (patchAcceptWaitlist env hdr (patchAcceptWaitlist env hdr db idStr none).1 idStr none).2 =
      { status := 200, ok := true, updated := some 1 } ∧
    (∀ r2 ∈ (patchAcceptWaitlist env hdr
        (patchAcceptWaitlist env hdr db idStr none).1 idStr none).1.waitlist,
      r2.id = r.id → r2.status = "accepted") := by
  have hk : requireAdminKey env hdr = Gate.ok := hauth
  have hmem : r.id ∈ db.waitlist.map Row.id := List.mem_map.2 ⟨r, hr, rfl⟩
  have hids0 := map_id_sqlUpdateStatusW db.waitlist "accepted" (JsNum.fin (r.id : Int) 0)
  have hstep : ∀ d : DB, patchAcceptWaitlist env hdr d idStr none =
      ({ d with waitlist := (sqlUpdateStatusW d.waitlist "accepted" (jsNumber idStr)).1 },
       { status := 200, ok := true,
         updated := some (sqlUpdateStatusW d.waitlist "accepted" (jsNumber idStr)).2 }) := by
    intro d
    simp only [patchAcceptWaitlist, hk]
  have h2c : (sqlUpdateStatusW db.waitlist "accepted" (jsNumber idStr)).2 = 1 := by
    show (db.waitlist.countP fun r2 => jsNumEq (jsNumber idStr) r2.id) = 1
    rw [hid]
    exact countP_fin_zero_of_nodup db.waitlist r.id hnd hmem
  have h2c2 : (sqlUpdateStatusW
      (sqlUpdateStatusW db.waitlist "accepted" (jsNumber idStr)).1 "accepted"
      (jsNumber idStr)).2 = 1 := by
    show ((sqlUpdateStatusW db.waitlist "accepted" (jsNumber idStr)).1.countP
      fun r2 => jsNumEq (jsNumber idStr) r2.id) = 1
    rw [hid]
    refine countP_fin_zero_of_nodup _ r.id ?_ ?_
    · rw [hids0]
      exact hnd
    · rw [hids0]
      exact hmem
  refine ⟨by simp [hstep, h2c], by simp [hstep, h2c, h2c2], ?_⟩
  intro r2 h2 hidr
  simp only [hstep] at h2
  rcases mem_sqlUpdateStatusW _ _ _ _ h2 with ⟨_, hst⟩ | ⟨hfalse, _⟩
  · exact hst
  · exfalso
    rw [hid, jsNumEq_fin_zero, hidr] at hfalse
    simp at hfalse

/-- C6, witness: accepting row 1 twice in a one-row store yields
`{updated:1}` the first time. -/
theorem C6_accept_idempotent_witness :
    (authOk ⟨some "k", none, false⟩ (some "k") ∧
      jsNumber "1" = JsNum.fin ((⟨1, "n", "e", "c", "pending", "T"⟩ : Row).id : Int) 0) ∧
    (patchAcceptWaitlist ⟨some "k", none, false⟩ (some "k")
        ⟨[⟨1, "n", "e", "c", "pending", "T"⟩], [], 1, 0⟩ "1" none).2 =
      { status := 200, ok := true, updated := some 1 } :=
  ⟨⟨by decide, by decide⟩,
   (C6_accept_idempotent ⟨some "k", none, false⟩ (some "k")
     ⟨[⟨1, "n", "e", "c", "pending", "T"⟩], [], 1, 0⟩ "1"
     ⟨1, "n", "e", "c", "pending", "T"⟩
     (by decide) (by decide) (by decide) (by decide)).1⟩

/-- C7: on an id present in no row of the table, accept and reject answer
`{ok:true, updated:0}` and delete answers `{ok:true, deleted:0}`, all as
successful structured responses with the store unchanged (the handlers
are total — nothing throws); moreover deleting any id and then accepting
that same id always answers `{ok:true, updated:0}`, covering ids whose
row was previously deleted. -/
theorem C7_missing_id (env : Env) (hdr : Option String) (db : DB) (idStr : String)
    (i : Nat) (hauth : authOk env hdr)
    (hmiss : ∀ r ∈ db.waitlist, r.id ≠ i)
    (hid : jsNumber idStr = JsNum.fin (i : Int) 0) :
    patchAcceptWaitlist env hdr db idStr none =
      (db, { status := 200, ok := true, updated := some 0 }) ∧
    patchRejectWaitlist env hdr db idStr none =
      (db, { status := 200, ok := true, updated := some 0 }) ∧
    deleteWaitlist env hdr db idStr none =
      (db, { status := 200, ok := true, deleted := some 0 }) ∧
    (∀ db2 : DB,
      (patchAcceptWaitlist env hdr (deleteWaitlist env hdr db2 idStr none).1 idStr none).2 =
        { status := 200, ok := true, updated := some 0 }) := by
  have hk : requireAdminKey env hdr = Gate.ok := hauth
  have hfalse : ∀ r ∈ db.waitlist, jsNumEq (jsNumber idStr) r.id = false := by
    intro r hr
    rw [hid, jsNumEq_fin_zero]
    refine beq_eq_false_iff_ne.2 (fun hcast => hmiss r hr ?_)
    exact_mod_cast hcast.symm
  refine ⟨?_, ?_, ?_, ?_⟩
  · simp only [patchAcceptWaitlist, hk,
      sqlUpdateStatusW_no_match db.waitlist "accepted" (jsNumber idStr) hfalse]
  · simp only [patchRejectWaitlist, hk,
      sqlUpdateStatusW_no_match db.waitlist "rejected" (jsNumber idStr) hfalse]
  · simp only [deleteWaitlist, hk,
      sqlDeleteW_no_match db.waitlist (jsNumber idStr) hfalse]
  · intro db2
    have hgone : ∀ r ∈ (deleteWaitlist env hdr db2 idStr none).1.waitlist,
        jsNumEq (jsNumber idStr) r.id = false := by
      intro r hrm
      simp only [deleteWaitlist, hk] at hrm
      exact sqlDeleteW_removes db2.waitlist (jsNumber idStr) r hrm
    simp only [patchAcceptWaitlist, hk,
      sqlUpdateStatusW_no_match _ "accepted" (jsNumber idStr) hgone]

/-- C7, witness: accepting the absent id 1 in a store holding only id 2
yields `{ok:true, updated:0}` and leaves the store unchanged. -/
theorem C7_missing_id_witness :
    (authOk ⟨some "k", none, false⟩ (some "k") ∧
      (∀ r ∈ [(⟨2, "n", "e", "c", "pending", "T"⟩ : Row)], r.id ≠ 1) ∧
      jsNumber "1" = JsNum.fin (1 : Int) 0) ∧
    patchAcceptWaitlist ⟨some "k", none, false⟩ (some "k")
        ⟨[⟨2, "n", "e", "c", "pending", "T"⟩], [], 2, 0⟩ "1" none =
      (⟨[⟨2, "n", "e", "c", "pending", "T"⟩], [], 2, 0⟩,
       { status := 200, ok := true, updated := some 0 }) :=
  ⟨⟨by decide, by decide, by decide⟩,
   (C7_missing_id ⟨some "k", none, false⟩ (some "k")
     ⟨[⟨2, "n", "e", "c", "pending", "T"⟩], [], 2, 0⟩ "1" 1
     (by decide) (by decide) (by decide)).1⟩

/-- C10, witness: the non-numeric id `abc` yields `{ok:true, updated:0}`. -/
theorem C10_nan_id_witness :
    (authOk ⟨some "k", none, false⟩ (some "k") ∧ jsNumber "abc" = JsNum.nan) ∧
    patchAcceptWaitlist ⟨some "k", none, false⟩ (some "k")
        ⟨[⟨1, "n", "e", "c", "pending", "T"⟩], [], 1, 0⟩ "abc" none =
      (⟨[⟨1, "n", "e", "c", "pending", "T"⟩], [], 1, 0⟩,
       { status := 200, ok := true, updated := some 0 }) :=
  ⟨⟨by decide, by decide⟩,
   (C10_nan_id ⟨some "k", none, false⟩ (some "k")
     ⟨[⟨1, "n", "e", "c", "pending", "T"⟩], [], 1, 0⟩ "abc"
     (by decide) (by decide)).1⟩

end Ziga
